import Mathlib

/-
Shallow embedding of the persistence core of `src/database.py` (SQLite snapshot
store for sector readings, market movers and news items).

Modelling conventions:
- Each SQLite table is a `List` of row structures, in rowid (insertion) order.
  A table that has not been created yet is `none`; `init_db` corresponds to the
  three `CREATE TABLE IF NOT EXISTS` statements.
- `REAL` columns are modelled as `Option ℚ` (`NULL` = `none`), `INTEGER` as
  `Option Int`, `TEXT` as `Option String` (`String` when declared `NOT NULL`).
- `fetched_at TIMESTAMP DEFAULT CURRENT_TIMESTAMP` is modelled by an explicit
  clock argument `now : Nat` passed to each insert call: `CURRENT_TIMESTAMP`
  has one-second granularity, so all rows written by one (sub-second) call
  share the value.  Timestamp text compares chronologically, hence `Nat`.
- Python dict inputs are structures of `Option` fields; `row["k"]` on a missing
  key raises `KeyError`, `row.get("k")` yields `None`.
- sqlite errors (`no such table`, `NOT NULL constraint failed`) and Python
  `KeyError` are collected in `DBError`; a failing call is `.error e`, and
  since the connection is then never committed the pending inserts roll back,
  so the caller's database state is unchanged.
- `ORDER BY` sorts with SQLite semantics: `NULL` is smaller than every value,
  so `DESC` puts `NULL`s last; `TEXT` compares bytewise (BINARY collation),
  modelled by lexicographic comparison on the character list.
- The `SELECT` column projections of the read queries are elided: the model
  returns whole rows, which carry exactly the projected attributes and more.
-/

namespace NewsSentiment

/-- Errors a store operation can surface: sqlite `no such table`
(`OperationalError`), Python `KeyError` on a missing dict key, and sqlite
`NOT NULL constraint failed` (`IntegrityError`). -/
inductive DBError where
  | noSuchTable : DBError
  | keyError : String → DBError
  | notNullViolation : DBError
deriving DecidableEq, Repr

/-- One row of `sector_snapshots` (the `id` autoincrement column is the list
position and is left implicit). -/
structure SectorRow where
  sector : String
  symbol : String
  price : Option ℚ
  change : Option ℚ
  changesPercentage : Option ℚ
  fetched_at : Nat
deriving DecidableEq, Repr

/-- One row of `market_movers`; `type` and `symbol` are declared `NOT NULL`. -/
structure MoverRow where
  type : String
  symbol : String
  name : Option String
  price : Option ℚ
  change : Option ℚ
  changesPercentage : Option ℚ
  volume : Option Int
  fetched_at : Nat
deriving DecidableEq, Repr

/-- One row of `stock_news`.  `url` is the `TEXT PRIMARY KEY`; SQLite permits
`NULL` in a non-INTEGER primary key and treats distinct `NULL`s as unequal, so
the field stays optional.  `title` is `NOT NULL`. -/
structure NewsRow where
  url : Option String
  symbol : Option String
  title : String
  text : Option String
  site : Option String
  publishedDate : Option String
  fetched_at : Nat
deriving DecidableEq, Repr

/-- A caller-supplied sector record (a Python dict: every key may be absent). -/
structure SectorInput where
  sector : Option String
  symbol : Option String
  price : Option ℚ
  change : Option ℚ
  changesPercentage : Option ℚ
deriving DecidableEq, Repr

/-- A caller-supplied mover record. -/
structure MoverInput where
  symbol : Option String
  name : Option String
  price : Option ℚ
  change : Option ℚ
  changesPercentage : Option ℚ
  volume : Option Int
deriving DecidableEq, Repr

/-- A caller-supplied news record. -/
structure NewsInput where
  url : Option String
  symbol : Option String
  title : Option String
  text : Option String
  site : Option String
  publishedDate : Option String
deriving DecidableEq, Repr

/-- The database file: three tables, each `none` until created. -/
structure DB where
  sector_snapshots : Option (List SectorRow)
  market_movers : Option (List MoverRow)
  stock_news : Option (List NewsRow)
deriving DecidableEq, Repr

/-- `init_db`: the three `CREATE TABLE IF NOT EXISTS` statements.  A missing
table becomes empty; an existing table is left exactly as it is. -/
def init_db (db : DB) : DB :=
  { sector_snapshots := some (db.sector_snapshots.getD [])
    market_movers := some (db.market_movers.getD [])
    stock_news := some (db.stock_news.getD []) }

/-- Bytewise (BINARY collation) comparison of `TEXT` values, on character
lists. -/
def lexLe : List Char → List Char → Bool
  | [], _ => true
  | _ :: _, [] => false
  | c :: cs, d :: ds => if c = d then lexLe cs ds else decide (c < d)

/-- Comparison of two `TEXT` values as SQLite orders them. -/
def strLe (a b : String) : Bool := lexLe a.data b.data

/-- Comparison realising `ORDER BY <nullable REAL column> DESC`: larger values
first, and since SQLite sorts `NULL` below every number, `NULL`s come last. -/
def cpDesc (a b : Option ℚ) : Bool :=
  match a, b with
  | none, none => true
  | none, some _ => false
  | some _, none => true
  | some x, some y => decide (y ≤ x)

/-- Comparison realising `ORDER BY <nullable TEXT column> DESC` (`NULL`s
last). -/
def pdDesc (a b : Option String) : Bool :=
  match a, b with
  | none, none => true
  | none, some _ => false
  | some _, none => true
  | some x, some y => strLe y x

/-- Sort order of `get_latest_sector_snapshot`:
`ORDER BY changesPercentage DESC`. -/
def sectorOrd (r s : SectorRow) : Bool := cpDesc r.changesPercentage s.changesPercentage

/-- Sort order of `get_latest_market_movers`:
`ORDER BY changesPercentage DESC`. -/
def moverOrd (r s : MoverRow) : Bool := cpDesc r.changesPercentage s.changesPercentage

/-- Sort order of `get_news`: `ORDER BY publishedDate DESC`. -/
def newsOrd (r s : NewsRow) : Bool := pdDesc r.publishedDate s.publishedDate

/-- Sort order of `get_sector_history`: `ORDER BY fetched_at ASC`. -/
def histOrd (r s : SectorRow) : Bool := decide (r.fetched_at ≤ s.fetched_at)

/-- `SELECT MAX(fetched_at) ...`: `NULL` (= `none`) on an empty row set. -/
def maxTs : List Nat → Option Nat
  | [] => none
  | t :: ts =>
    match maxTs ts with
    | none => some t
    | some m => some (max t m)

/-- Stable insertion into a sorted list (the sorting step of `ORDER BY`). -/
def insertLe (le : α → α → Bool) (a : α) : List α → List α
  | [] => [a]
  | b :: l => if le a b then a :: b :: l else b :: insertLe le a l

/-- Stable sort implementing `ORDER BY` (an equal-key-preserving sort; SQLite's
scan of an unindexed table returns ties in rowid order). -/
def sortLe (le : α → α → Bool) : List α → List α
  | [] => []
  | a :: l => insertLe le a (sortLe le l)

/-- Building the stored row for one sector input: `row["sector"]` and
`row["symbol"]` are mandatory lookups (a missing key raises `KeyError`), the
remaining columns use `row.get` and may be `NULL`. -/
def sectorRowOfInput (now : Nat) (r : SectorInput) : Except DBError SectorRow :=
  match r.sector with
  | none => .error (.keyError "sector")
  | some s =>
    match r.symbol with
    | none => .error (.keyError "symbol")
    | some sym =>
      .ok { sector := s, symbol := sym, price := r.price, change := r.change
            changesPercentage := r.changesPercentage, fetched_at := now }

/-- The insert loop of `insert_sector_snapshot`.  For each row the two dict
lookups run first (so `KeyError` precedes any sqlite error), then the
`INSERT` executes, which needs the table to exist. -/
def sectorInsertLoop (tablePresent : Bool) (now : Nat) :
    List SectorInput → Except DBError (List SectorRow)
  | [] => .ok []
  | r :: rs =>
    match sectorRowOfInput now r with
    | .error e => .error e
    | .ok row =>
      if tablePresent then
        match sectorInsertLoop tablePresent now rs with
        | .error e => .error e
        | .ok rows => .ok (row :: rows)
      else .error .noSuchTable

/-- `insert_sector_snapshot(data)`: early return on an empty batch (before any
connection is opened), otherwise one `INSERT` per row; on any error nothing is
committed, so the stored state is unchanged. -/
def insert_sector_snapshot (db : DB) (now : Nat) (data : List SectorInput) :
    Except DBError DB :=
  if data.isEmpty then .ok db
  else
    match sectorInsertLoop db.sector_snapshots.isSome now data with
    | .error e => .error e
    | .ok newRows =>
      .ok { db with sector_snapshots := some (db.sector_snapshots.getD [] ++ newRows) }

/-- Building the stored row for one mover input: every field uses `row.get`,
but `symbol` is a `NOT NULL` column, so a missing symbol makes the `INSERT`
fail with a constraint violation. -/
def moverRowOfInput (mover_type : String) (now : Nat) (r : MoverInput) :
    Except DBError MoverRow :=
  match r.symbol with
  | none => .error .notNullViolation
  | some sym =>
    .ok { type := mover_type, symbol := sym, name := r.name, price := r.price
          change := r.change, changesPercentage := r.changesPercentage
          volume := r.volume, fetched_at := now }

/-- The insert loop of `insert_market_movers`: all lookups are `row.get`, so
the first error an `INSERT` can hit is the missing table, then the `NOT NULL`
constraint on `symbol`. -/
def moverInsertLoop (tablePresent : Bool) (mover_type : String) (now : Nat) :
    List MoverInput → Except DBError (List MoverRow)
  | [] => .ok []
  | r :: rs =>
    if tablePresent then
      match moverRowOfInput mover_type now r with
      | .error e => .error e
      | .ok row =>
        match moverInsertLoop tablePresent mover_type now rs with
        | .error e => .error e
        | .ok rows => .ok (row :: rows)
    else .error .noSuchTable

/-- `insert_market_movers(mover_type, data)`. -/
def insert_market_movers (db : DB) (now : Nat) (mover_type : String)
    (data : List MoverInput) : Except DBError DB :=
  if data.isEmpty then .ok db
  else
    match moverInsertLoop db.market_movers.isSome mover_type now data with
    | .error e => .error e
    | .ok newRows =>
      .ok { db with market_movers := some (db.market_movers.getD [] ++ newRows) }

/-- Building the candidate stored row for one news item.  `title` is `NOT
NULL`, and the statement is `INSERT OR IGNORE`, so an item without a title is
silently skipped (`none` here). -/
def newsRowOfInput (now : Nat) (it : NewsInput) : Option NewsRow :=
  match it.title with
  | none => none
  | some t =>
    some { url := it.url, symbol := it.symbol, title := t, text := it.text
           site := it.site, publishedDate := it.publishedDate, fetched_at := now }

/-- Whether the primary-key value of a candidate news row collides with a
stored row.  A `NULL` url never collides: SQLite treats `NULL`s in a non-integer
primary key as pairwise distinct. -/
def urlTaken (rows : List NewsRow) (u : Option String) : Bool :=
  match u with
  | none => false
  | some v => rows.any (fun r => r.url == some v)

/-- The insert loop of `insert_news`: `INSERT OR IGNORE` row by row, each item
seeing the rows inserted by the items before it in the same call. -/
def newsInsertLoop (now : Nat) (rows : List NewsRow) :
    List NewsInput → List NewsRow
  | [] => rows
  | it :: rest =>
    match newsRowOfInput now it with
    | none => newsInsertLoop now rows rest
    | some row =>
      if urlTaken rows row.url then newsInsertLoop now rows rest
      else newsInsertLoop now (rows ++ [row]) rest

/-- `insert_news(data)`: early return on an empty list, otherwise one
`INSERT OR IGNORE` per item (which never raises a constraint error). -/
def insert_news (db : DB) (now : Nat) (data : List NewsInput) :
    Except DBError DB :=
  if data.isEmpty then .ok db
  else
    match db.stock_news with
    | none => .error .noSuchTable
    | some rows => .ok { db with stock_news := some (newsInsertLoop now rows data) }

/-- `get_latest_sector_snapshot()`: rows whose `fetched_at` equals the global
`MAX(fetched_at)` of the table, `ORDER BY changesPercentage DESC`.  When the
table is empty the subquery yields `NULL` and `fetched_at = NULL` selects
nothing. -/
def get_latest_sector_snapshot (db : DB) : Except DBError (List SectorRow) :=
  match db.sector_snapshots with
  | none => .error .noSuchTable
  | some rows =>
    match maxTs (rows.map (fun r => r.fetched_at)) with
    | none => .ok []
    | some m => .ok (sortLe sectorOrd (rows.filter (fun r => r.fetched_at == m)))

/-- `get_sector_history(sector)`: the rows of one sector,
`ORDER BY fetched_at ASC`. -/
def get_sector_history (db : DB) (sector : String) : Except DBError (List SectorRow) :=
  match db.sector_snapshots with
  | none => .error .noSuchTable
  | some rows => .ok (sortLe histOrd (rows.filter (fun r => r.sector == sector)))

/-- `get_latest_market_movers(mover_type)`: rows of the given type whose
`fetched_at` equals `MAX(fetched_at)` computed over that type's rows only,
`ORDER BY changesPercentage DESC`. -/
def get_latest_market_movers (db : DB) (mover_type : String) :
    Except DBError (List MoverRow) :=
  match db.market_movers with
  | none => .error .noSuchTable
  | some rows =>
    match maxTs ((rows.filter (fun r => r.type == mover_type)).map (fun r => r.fetched_at)) with
    | none => .ok []
    | some m =>
      .ok (sortLe moverOrd
        (rows.filter (fun r => r.type == mover_type && r.fetched_at == m)))

/-- `get_news(limit)`: all news rows `ORDER BY publishedDate DESC LIMIT ?`. -/
def get_news (db : DB) (limit : Nat) : Except DBError (List NewsRow) :=
  match db.stock_news with
  | none => .error .noSuchTable
  | some rows => .ok ((sortLe newsOrd rows).take limit)

/-- How an operation leaves its sqlite connection.  The source has no
`try/finally`: `conn.close()` is the last statement of each function, so it
runs only when nothing raised; an empty-batch insert returns before
`get_db_connection()` is even called. -/
inductive ConnExit where
  | neverOpened : ConnExit
  | closedOk : ConnExit
  | leaked : ConnExit
deriving DecidableEq, Repr

/-- The connection outcome of a call that opened a connection: closed exactly
when the body ran to completion. -/
def connExitOfResult (r : Except DBError α) : ConnExit :=
  match r with
  | .ok _ => .closedOk
  | .error _ => .leaked

/-- Connection accounting of `insert_sector_snapshot`. -/
def insert_sector_snapshot_conn (db : DB) (now : Nat) (data : List SectorInput) :
    ConnExit :=
  if data.isEmpty then .neverOpened
  else connExitOfResult (insert_sector_snapshot db now data)

/-- Connection accounting of `insert_news`. -/
def insert_news_conn (db : DB) (now : Nat) (data : List NewsInput) : ConnExit :=
  if data.isEmpty then .neverOpened
  else connExitOfResult (insert_news db now data)

/-- Connection accounting of `get_latest_sector_snapshot`. -/
def get_latest_sector_snapshot_conn (db : DB) : ConnExit :=
  connExitOfResult (get_latest_sector_snapshot db)

/-- The consecutive-pairs ordering property established by `ORDER BY`. -/
def SortedBy (le : α → α → Bool) (l : List α) : Prop :=
  List.Pairwise (fun a b => le a b = true) l

theorem mem_insertLe {le : α → α → Bool} {a b : α} {l : List α} :
    b ∈ insertLe le a l ↔ b = a ∨ b ∈ l := by
  induction l with
  | nil => simp [insertLe]
  | cons c l ih =>
    by_cases h : le a c = true
    · simp [insertLe, h]
    · simp [insertLe, h, ih]
      tauto

theorem insertLe_perm (le : α → α → Bool) (a : α) (l : List α) :
    List.Perm (insertLe le a l) (a :: l) := by
  induction l with
  | nil => exact List.Perm.refl _
  | cons c l ih =>
    by_cases h : le a c = true
    · simp only [insertLe, if_pos h]
      exact List.Perm.refl _
    · simp only [insertLe, if_neg h]
      exact (ih.cons c).trans (List.Perm.swap a c l)

theorem sortLe_perm (le : α → α → Bool) (l : List α) :
    List.Perm (sortLe le l) l := by
  induction l with
  | nil => exact List.Perm.refl _
  | cons a l ih => exact (insertLe_perm le a (sortLe le l)).trans (ih.cons a)

theorem mem_sortLe {le : α → α → Bool} {a : α} {l : List α} :
    a ∈ sortLe le l ↔ a ∈ l :=
  (sortLe_perm le l).mem_iff

theorem sortedBy_insertLe {le : α → α → Bool}
    (total : ∀ a b, le a b = true ∨ le b a = true)
    (htrans : ∀ a b c, le a b = true → le b c = true → le a c = true)
    {a : α} {l : List α} (h : SortedBy le l) : SortedBy le (insertLe le a l) := by
  induction l with
  | nil => simp [insertLe, SortedBy]
  | cons b l ih =>
    unfold SortedBy at *
    by_cases hab : le a b = true
    · simp only [insertLe, if_pos hab]
      refine List.Pairwise.cons ?_ h
      intro x hx
      rcases List.mem_cons.mp hx with rfl | hx
      · exact hab
      · exact htrans a b x hab (List.rel_of_pairwise_cons h hx)
    · simp only [insertLe, if_neg hab]
      refine List.Pairwise.cons ?_ (ih h.of_cons)
      intro x hx
      rcases mem_insertLe.mp hx with heq | hx
      · rw [heq]
        rcases total a b with h1 | h1
        · exact absurd h1 hab
        · exact h1
      · exact List.rel_of_pairwise_cons h hx

theorem sortedBy_sortLe {le : α → α → Bool}
    (total : ∀ a b, le a b = true ∨ le b a = true)
    (htrans : ∀ a b c, le a b = true → le b c = true → le a c = true)
    (l : List α) : SortedBy le (sortLe le l) := by
  induction l with
  | nil => exact List.Pairwise.nil
  | cons a l ih => exact sortedBy_insertLe total htrans ih

theorem insertLe_eq_cons {le : α → α → Bool} {a : α} {l : List α}
    (h : ∀ x ∈ l, le a x = true) : insertLe le a l = a :: l := by
  cases l with
  | nil => rfl
  | cons b l => simp [insertLe, h b (List.mem_cons_self b l)]

theorem sortLe_of_sorted {le : α → α → Bool} {l : List α}
    (h : SortedBy le l) : sortLe le l = l := by
  induction l with
  | nil => rfl
  | cons a l ih =>
    unfold SortedBy at h
    have h1 : sortLe le (a :: l) = insertLe le a (sortLe le l) := rfl
    rw [h1, ih h.of_cons, insertLe_eq_cons]
    intro x hx
    exact List.rel_of_pairwise_cons h hx

theorem lexLe_total : ∀ a b : List Char, lexLe a b = true ∨ lexLe b a = true
  | [], _ => Or.inl rfl
  | _ :: _, [] => Or.inr rfl
  | c :: cs, d :: ds => by
    by_cases h : c = d
    · subst h
      simp only [lexLe, if_pos rfl]
      exact lexLe_total cs ds
    · have h2 : ¬ d = c := fun e => h e.symm
      simp only [lexLe, if_neg h, if_neg h2]
      rcases lt_or_gt_of_ne h with h3 | h3
      · exact Or.inl (decide_eq_true h3)
      · exact Or.inr (decide_eq_true h3)

theorem lexLe_trans : ∀ a b c : List Char,
    lexLe a b = true → lexLe b c = true → lexLe a c = true
  | [], _, _, _, _ => rfl
  | _ :: _, [], _, h1, _ => by simp [lexLe] at h1
  | _ :: _, _ :: _, [], _, h2 => by simp [lexLe] at h2
  | x :: xs, y :: ys, z :: zs, h1, h2 => by
    by_cases hxy : x = y
    · subst hxy
      by_cases hyz : x = z
      · subst hyz
        simp only [lexLe, if_pos rfl] at h1 h2 ⊢
        exact lexLe_trans xs ys zs h1 h2
      · simp only [lexLe, if_neg hyz] at h2 ⊢
        exact h2
    · by_cases hyz : y = z
      · subst hyz
        simp only [lexLe, if_neg hxy] at h1 ⊢
        exact h1
      · simp only [lexLe, if_neg hxy] at h1
        simp only [lexLe, if_neg hyz] at h2
        have hx : x < y := of_decide_eq_true h1
        have hy : y < z := of_decide_eq_true h2
        have hxz : x < z := lt_trans hx hy
        simp only [lexLe, if_neg (ne_of_lt hxz)]
        exact decide_eq_true hxz

theorem strLe_total (a b : String) : strLe a b = true ∨ strLe b a = true :=
  lexLe_total a.data b.data

theorem strLe_trans (a b c : String) :
    strLe a b = true → strLe b c = true → strLe a c = true :=
  lexLe_trans a.data b.data c.data

theorem cpDesc_total (a b : Option ℚ) : cpDesc a b = true ∨ cpDesc b a = true := by
  cases a with
  | none =>
    cases b with
    | none => exact Or.inl rfl
    | some y => exact Or.inr rfl
  | some x =>
    cases b with
    | none => exact Or.inl rfl
    | some y =>
      rcases le_total y x with h | h
      · exact Or.inl (decide_eq_true h)
      · exact Or.inr (decide_eq_true h)

theorem cpDesc_trans (a b c : Option ℚ) :
    cpDesc a b = true → cpDesc b c = true → cpDesc a c = true := by
  cases a <;> cases b <;> cases c <;> intro h1 h2 <;>
    first
      | rfl
      | exact absurd h1 Bool.false_ne_true
      | exact absurd h2 Bool.false_ne_true
      | exact decide_eq_true (le_trans (of_decide_eq_true h2) (of_decide_eq_true h1))

theorem pdDesc_total (a b : Option String) : pdDesc a b = true ∨ pdDesc b a = true := by
  cases a with
  | none =>
    cases b with
    | none => exact Or.inl rfl
    | some y => exact Or.inr rfl
  | some x =>
    cases b with
    | none => exact Or.inl rfl
    | some y =>
      rcases strLe_total y x with h | h
      · exact Or.inl h
      · exact Or.inr h

theorem pdDesc_trans (a b c : Option String) :
    pdDesc a b = true → pdDesc b c = true → pdDesc a c = true := by
  cases a <;> cases b <;> cases c <;> intro h1 h2 <;>
    first
      | rfl
      | exact absurd h1 Bool.false_ne_true
      | exact absurd h2 Bool.false_ne_true
      | exact strLe_trans _ _ _ h2 h1

theorem sectorOrd_total (r s : SectorRow) :
    sectorOrd r s = true ∨ sectorOrd s r = true := cpDesc_total _ _

theorem sectorOrd_trans (r s t : SectorRow) :
    sectorOrd r s = true → sectorOrd s t = true → sectorOrd r t = true :=
  cpDesc_trans _ _ _

theorem moverOrd_total (r s : MoverRow) :
    moverOrd r s = true ∨ moverOrd s r = true := cpDesc_total _ _

theorem moverOrd_trans (r s t : MoverRow) :
    moverOrd r s = true → moverOrd s t = true → moverOrd r t = true :=
  cpDesc_trans _ _ _

theorem newsOrd_total (r s : NewsRow) :
    newsOrd r s = true ∨ newsOrd s r = true := pdDesc_total _ _

theorem newsOrd_trans (r s t : NewsRow) :
    newsOrd r s = true → newsOrd s t = true → newsOrd r t = true :=
  pdDesc_trans _ _ _

theorem histOrd_total (r s : SectorRow) :
    histOrd r s = true ∨ histOrd s r = true := by
  rcases Nat.le_total r.fetched_at s.fetched_at with h | h
  · exact Or.inl (decide_eq_true h)
  · exact Or.inr (decide_eq_true h)

theorem histOrd_trans (r s t : SectorRow) :
    histOrd r s = true → histOrd s t = true → histOrd r t = true := by
  intro h1 h2
  exact decide_eq_true (Nat.le_trans (of_decide_eq_true h1) (of_decide_eq_true h2))

theorem maxTs_eq_none_iff {l : List Nat} : maxTs l = none ↔ l = [] := by
  cases l with
  | nil => simp [maxTs]
  | cons t ts =>
    simp only [maxTs]
    cases h : maxTs ts <;> simp

theorem maxTs_mem {l : List Nat} {m : Nat} (h : maxTs l = some m) : m ∈ l := by
  induction l generalizing m with
  | nil => simp [maxTs] at h
  | cons t ts ih =>
    simp only [maxTs] at h
    cases h2 : maxTs ts with
    | none =>
      rw [h2] at h
      have h3 : t = m := by simpa using h
      subst h3
      exact List.mem_cons_self _ _
    | some m2 =>
      rw [h2] at h
      have h3 : max t m2 = m := by simpa using h
      rcases max_choice t m2 with h4 | h4
      · rw [h4] at h3
        subst h3
        exact List.mem_cons_self _ _
      · rw [h4] at h3
        subst h3
        exact List.mem_cons_of_mem _ (ih h2)

theorem le_maxTs {l : List Nat} : ∀ {m t : Nat}, maxTs l = some m → t ∈ l → t ≤ m := by
  induction l with
  | nil =>
    intro m t _ ht
    simp at ht
  | cons a ts ih =>
    intro m t h ht
    simp only [maxTs] at h
    rcases List.mem_cons.mp ht with rfl | ht2
    · cases h2 : maxTs ts with
      | none =>
        rw [h2] at h
        have h3 : t = m := by simpa using h
        omega
      | some m2 =>
        rw [h2] at h
        have h3 : max t m2 = m := by simpa using h
        have h4 := le_max_left t m2
        omega
    · cases h2 : maxTs ts with
      | none =>
        rw [maxTs_eq_none_iff] at h2
        subst h2
        simp at ht2
      | some m2 =>
        rw [h2] at h
        have h3 : max a m2 = m := by simpa using h
        have h4 := ih h2 ht2
        have h5 := le_max_right a m2
        omega

theorem maxTs_eq_of {l : List Nat} {t : Nat} (h1 : t ∈ l) (h2 : ∀ x ∈ l, x ≤ t) :
    maxTs l = some t := by
  cases hm : maxTs l with
  | none =>
    rw [maxTs_eq_none_iff] at hm
    subst hm
    simp at h1
  | some m =>
    have hml : m ∈ l := maxTs_mem hm
    have h3 : t ≤ m := le_maxTs hm h1
    have h4 : m = t := le_antisymm (h2 m hml) h3
    rw [h4]

/-- The stored row built for a sector input that carries both mandatory keys
(the `getD` defaults are never reached in that case). -/
def sectorRowTotal (now : Nat) (r : SectorInput) : SectorRow :=
  { sector := r.sector.getD "", symbol := r.symbol.getD ""
    price := r.price, change := r.change
    changesPercentage := r.changesPercentage, fetched_at := now }

/-- The stored row built for a mover input whose symbol is present. -/
def moverRowTotal (mover_type : String) (now : Nat) (r : MoverInput) : MoverRow :=
  { type := mover_type, symbol := r.symbol.getD "", name := r.name
    price := r.price, change := r.change
    changesPercentage := r.changesPercentage, volume := r.volume, fetched_at := now }

theorem sectorInsertLoop_ok {now : Nat} :
    ∀ {data : List SectorInput}, (∀ r ∈ data, r.sector.isSome ∧ r.symbol.isSome) →
      sectorInsertLoop true now data = .ok (data.map (sectorRowTotal now)) := by
  intro data
  induction data with
  | nil => intro _; rfl
  | cons r rs ih =>
    intro h
    obtain ⟨hs, hsym⟩ := h r (List.mem_cons_self r rs)
    obtain ⟨s, hs2⟩ := Option.isSome_iff_exists.mp hs
    obtain ⟨sym, hsym2⟩ := Option.isSome_iff_exists.mp hsym
    have h2 : ∀ x ∈ rs, x.sector.isSome ∧ x.symbol.isSome :=
      fun x hx => h x (List.mem_cons_of_mem _ hx)
    simp only [sectorInsertLoop, sectorRowOfInput, hs2, hsym2, ih h2]
    simp [sectorRowTotal, hs2, hsym2]

theorem insert_sector_snapshot_ok {db : DB} {rows : List SectorRow} {now : Nat}
    {data : List SectorInput} (hrows : db.sector_snapshots = some rows)
    (hkeys : ∀ r ∈ data, r.sector.isSome ∧ r.symbol.isSome) :
    ∃ db', insert_sector_snapshot db now data = .ok db' ∧
      db'.sector_snapshots = some (rows ++ data.map (sectorRowTotal now)) ∧
      db'.market_movers = db.market_movers ∧ db'.stock_news = db.stock_news := by
  by_cases hd : data.isEmpty = true
  · refine ⟨db, ?_, ?_, rfl, rfl⟩
    · simp [insert_sector_snapshot, hd]
    · rw [List.isEmpty_iff] at hd
      subst hd
      simp [hrows]
  · refine ⟨{ db with sector_snapshots := some (rows ++ data.map (sectorRowTotal now)) },
      ?_, rfl, rfl, rfl⟩
    simp only [insert_sector_snapshot, hrows, Option.isSome_some, Option.getD_some]
    rw [if_neg hd, sectorInsertLoop_ok hkeys]

theorem moverInsertLoop_ok {c : String} {now : Nat} :
    ∀ {data : List MoverInput}, (∀ r ∈ data, r.symbol.isSome) →
      moverInsertLoop true c now data = .ok (data.map (moverRowTotal c now)) := by
  intro data
  induction data with
  | nil => intro _; rfl
  | cons r rs ih =>
    intro h
    obtain ⟨sym, hsym⟩ := Option.isSome_iff_exists.mp (h r (List.mem_cons_self r rs))
    have h2 : ∀ x ∈ rs, x.symbol.isSome := fun x hx => h x (List.mem_cons_of_mem _ hx)
    simp only [moverInsertLoop, moverRowOfInput, hsym, ih h2, if_true]
    simp [moverRowTotal, hsym]

theorem moverInsertLoop_types {tp : Bool} {c : String} {now : Nat} :
    ∀ {data : List MoverInput} {l : List MoverRow},
      moverInsertLoop tp c now data = .ok l → ∀ r ∈ l, r.type = c := by
  intro data
  induction data with
  | nil =>
    intro l h r hr
    simp only [moverInsertLoop] at h
    obtain rfl : ([] : List MoverRow) = l := by simpa using h
    simp at hr
  | cons r rs ih =>
    intro l h x hx
    cases tp with
    | false => simp [moverInsertLoop] at h
    | true =>
      cases hs : r.symbol with
      | none => simp [moverInsertLoop, moverRowOfInput, hs] at h
      | some sym =>
        simp only [moverInsertLoop, moverRowOfInput, hs, if_true] at h
        cases h2 : moverInsertLoop true c now rs with
        | error e => rw [h2] at h; simp at h
        | ok rows2 =>
          rw [h2] at h
          injection h with h3
          rw [← h3] at hx
          rcases List.mem_cons.mp hx with heq | hx2
          · rw [heq]
          · exact ih h2 x hx2

theorem insert_market_movers_ok {db : DB} {rows : List MoverRow} {now : Nat}
    {c : String} {data : List MoverInput} (hrows : db.market_movers = some rows)
    (hsym : ∀ r ∈ data, r.symbol.isSome) :
    ∃ db', insert_market_movers db now c data = .ok db' ∧
      db'.market_movers = some (rows ++ data.map (moverRowTotal c now)) ∧
      db'.sector_snapshots = db.sector_snapshots ∧ db'.stock_news = db.stock_news := by
  by_cases hd : data.isEmpty = true
  · refine ⟨db, ?_, ?_, rfl, rfl⟩
    · simp [insert_market_movers, hd]
    · rw [List.isEmpty_iff] at hd
      subst hd
      simp [hrows]
  · refine ⟨{ db with market_movers := some (rows ++ data.map (moverRowTotal c now)) },
      ?_, rfl, rfl, rfl⟩
    simp only [insert_market_movers, hrows, Option.isSome_some, Option.getD_some]
    rw [if_neg hd, moverInsertLoop_ok hsym]

theorem insert_market_movers_shape {db db' : DB} {rows : List MoverRow}
    {now : Nat} {c : String} {data : List MoverInput}
    (hrows : db.market_movers = some rows)
    (h : insert_market_movers db now c data = .ok db') :
    ∃ added, db'.market_movers = some (rows ++ added) ∧ (∀ r ∈ added, r.type = c) ∧
      db'.sector_snapshots = db.sector_snapshots ∧ db'.stock_news = db.stock_news := by
  by_cases hd : data.isEmpty = true
  · simp only [insert_market_movers, if_pos hd] at h
    obtain rfl : db = db' := by simpa using h
    exact ⟨[], by simp [hrows], by simp, rfl, rfl⟩
  · simp only [insert_market_movers] at h
    rw [if_neg hd] at h
    cases h2 : moverInsertLoop db.market_movers.isSome c now data with
    | error e => rw [h2] at h; simp at h
    | ok newRows =>
      rw [h2] at h
      have h3 : { db with market_movers := some (db.market_movers.getD [] ++ newRows) } = db' := by
        simpa using h
      refine ⟨newRows, ?_, moverInsertLoop_types h2, ?_, ?_⟩
      · rw [← h3]
        simp [hrows]
      · rw [← h3]
      · rw [← h3]

theorem newsInsertLoop_append {now : Nat} :
    ∀ (data : List NewsInput) (acc : List NewsRow),
      ∃ added, newsInsertLoop now acc data = acc ++ added := by
  intro data
  induction data with
  | nil => intro acc; exact ⟨[], (List.append_nil acc).symm⟩
  | cons it rest ih =>
    intro acc
    cases hn : newsRowOfInput now it with
    | none =>
      obtain ⟨added, ha⟩ := ih acc
      exact ⟨added, by simp only [newsInsertLoop, hn]; exact ha⟩
    | some row =>
      by_cases ht : urlTaken acc row.url = true
      · obtain ⟨added, ha⟩ := ih acc
        refine ⟨added, ?_⟩
        simp only [newsInsertLoop, hn]
        rw [if_pos ht]
        exact ha
      · obtain ⟨added, ha⟩ := ih (acc ++ [row])
        refine ⟨row :: added, ?_⟩
        simp only [newsInsertLoop, hn]
        rw [if_neg ht, ha]
        simp

/-- Number of stored news rows carrying a given (non-`NULL`) url. -/
def urlCount (rows : List NewsRow) (u : String) : Nat :=
  (rows.filter (fun r => r.url == some u)).length

theorem urlCount_eq_zero_iff {rows : List NewsRow} {u : String} :
    urlCount rows u = 0 ↔ urlTaken rows (some u) = false := by
  simp [urlCount, urlTaken, List.length_eq_zero, List.filter_eq_nil_iff]

theorem urlTaken_true_of_count {rows : List NewsRow} {u : String}
    (h : 1 ≤ urlCount rows u) : urlTaken rows (some u) = true := by
  by_contra hc
  have h2 : urlTaken rows (some u) = false := by simpa using hc
  rw [← urlCount_eq_zero_iff] at h2
  omega

theorem urlCount_append (a b : List NewsRow) (u : String) :
    urlCount (a ++ b) u = urlCount a u + urlCount b u := by
  simp [urlCount, List.filter_append]

theorem newsInsertLoop_count_le_one {now : Nat} :
    ∀ (data : List NewsInput) (acc : List NewsRow) (u : String),
      urlCount acc u ≤ 1 → urlCount (newsInsertLoop now acc data) u ≤ 1 := by
  intro data
  induction data with
  | nil => intro acc u h; exact h
  | cons it rest ih =>
    intro acc u h
    cases hn : newsRowOfInput now it with
    | none =>
      simp only [newsInsertLoop, hn]
      exact ih acc u h
    | some row =>
      by_cases ht : urlTaken acc row.url = true
      · simp only [newsInsertLoop, hn]
        rw [if_pos ht]
        exact ih acc u h
      · simp only [newsInsertLoop, hn]
        rw [if_neg ht]
        apply ih
        by_cases hu : row.url = some u
        · have ht2 : urlTaken acc (some u) = false := by
            rw [← hu]
            simpa using ht
          have h0 : urlCount acc u = 0 := urlCount_eq_zero_iff.mpr ht2
          have h1 : urlCount [row] u = 1 := by simp [urlCount, List.filter, hu]
          rw [urlCount_append, h0, h1]
        · have hb : (row.url == some u) = false := by simpa using hu
          have h1 : urlCount [row] u = 0 := by simp [urlCount, List.filter, hb]
          rw [urlCount_append, h1]
          omega

theorem newsInsertLoop_filter_of_taken {now : Nat} :
    ∀ (data : List NewsInput) (acc : List NewsRow) (u : String),
      urlTaken acc (some u) = true →
      (newsInsertLoop now acc data).filter (fun r => r.url == some u) =
        acc.filter (fun r => r.url == some u) := by
  intro data
  induction data with
  | nil => intro acc u _; rfl
  | cons it rest ih =>
    intro acc u h
    cases hn : newsRowOfInput now it with
    | none =>
      simp only [newsInsertLoop, hn]
      exact ih acc u h
    | some row =>
      by_cases ht : urlTaken acc row.url = true
      · simp only [newsInsertLoop, hn]
        rw [if_pos ht]
        exact ih acc u h
      · simp only [newsInsertLoop, hn]
        rw [if_neg ht]
        have hne : row.url ≠ some u := by
          intro he
          rw [he] at ht
          exact ht h
        have htaken : urlTaken (acc ++ [row]) (some u) = true := by
          simp only [urlTaken, List.any_append] at h ⊢
          simp [h]
        rw [ih (acc ++ [row]) u htaken]
        have hb : (row.url == some u) = false := by simpa using hne
        simp [List.filter_append, List.filter, hb]

/-- C4: `latestSectorSnapshot` returns exactly the readings whose captured-at
equals the maximum captured-at present in the whole sector collection, sorted
by percent change descending with missing percent changes last (every row
listed after a `NULL` percent change is itself `NULL`), and returns the empty
sequence when the collection is empty. -/
theorem C4_latest_sector_snapshot (db : DB) (rows : List SectorRow)
    (hrows : db.sector_snapshots = some rows) :
    ∃ out, get_latest_sector_snapshot db = .ok out ∧
      (∀ r, r ∈ out ↔ r ∈ rows ∧
        maxTs (rows.map (fun s => s.fetched_at)) = some r.fetched_at) ∧
      SortedBy sectorOrd out ∧
      (∀ l1 l2 r s, out = l1 ++ r :: l2 → s ∈ l2 →
        r.changesPercentage = none → s.changesPercentage = none) ∧
      (rows = [] → out = []) := by
  have nullsLast : ∀ out : List SectorRow, SortedBy sectorOrd out →
      ∀ l1 l2 r s, out = l1 ++ r :: l2 → s ∈ l2 →
        r.changesPercentage = none → s.changesPercentage = none := by
    intro out hp l1 l2 r s heq hs hr
    rw [heq] at hp
    unfold SortedBy at hp
    have h2 : List.Pairwise (fun a b => sectorOrd a b = true) (r :: l2) :=
      List.Pairwise.sublist (List.sublist_append_right l1 (r :: l2)) hp
    have h3 : sectorOrd r s = true := List.rel_of_pairwise_cons h2 hs
    unfold sectorOrd cpDesc at h3
    rw [hr] at h3
    cases hcp : s.changesPercentage with
    | none => rfl
    | some v =>
      rw [hcp] at h3
      exact absurd h3 Bool.false_ne_true
  simp only [get_latest_sector_snapshot, hrows]
  cases hm : maxTs (rows.map (fun r => r.fetched_at)) with
  | none =>
    refine ⟨[], rfl, ?_, List.Pairwise.nil, nullsLast [] List.Pairwise.nil, fun _ => rfl⟩
    intro r
    simp
  | some m =>
    refine ⟨_, rfl, ?_,
      sortedBy_sortLe sectorOrd_total sectorOrd_trans _,
      nullsLast _ (sortedBy_sortLe sectorOrd_total sectorOrd_trans _), ?_⟩
    · intro r
      rw [mem_sortLe, List.mem_filter]
      simp only [beq_iff_eq, Option.some.injEq]
      constructor
      · rintro ⟨h1, h2⟩
        exact ⟨h1, h2.symm⟩
      · rintro ⟨h1, h2⟩
        exact ⟨h1, h2.symm⟩
    · intro h
      subst h
      simp [maxTs] at hm

/-- C5: `recentNews(limit)` is the `limit`-element initial segment of a
publishedDate-descending ordering of all stored items; `recentNews(0)` is
empty even when items are stored, and a limit at least the stored count
returns all stored items. -/
theorem C5_recent_news (db : DB) (rows : List NewsRow) (limit : Nat)
    (hrows : db.stock_news = some rows) :
    ∃ sortedRows out, get_news db limit = .ok out ∧
      List.Perm sortedRows rows ∧ SortedBy newsOrd sortedRows ∧
      out = sortedRows.take limit ∧
      (limit = 0 → out = []) ∧
      (rows.length ≤ limit → List.Perm out rows) ∧
      out.length = min limit rows.length := by
  simp only [get_news, hrows]
  refine ⟨sortLe newsOrd rows, _, rfl, sortLe_perm _ _,
    sortedBy_sortLe newsOrd_total newsOrd_trans _, rfl, ?_, ?_, ?_⟩
  · intro h
    subst h
    exact List.take_zero _
  · intro h
    have hlen : (sortLe newsOrd rows).length = rows.length := (sortLe_perm _ _).length_eq
    rw [List.take_of_length_le (by omega)]
    exact sortLe_perm _ _
  · rw [List.length_take, (sortLe_perm newsOrd rows).length_eq]

/-- C6: `sectorHistory(s)` returns exactly the stored readings whose sector is
`s`, ordered by captured-at ascending — which is their insertion order
whenever the store was built with a monotone clock — and returns the empty
sequence (not an error) when none match. -/
theorem C6_sector_history (db : DB) (rows : List SectorRow) (s : String)
    (hrows : db.sector_snapshots = some rows) :
    ∃ out, get_sector_history db s = .ok out ∧
      List.Perm out (rows.filter (fun r => r.sector == s)) ∧
      SortedBy histOrd out ∧
      ((∀ r ∈ rows, r.sector ≠ s) → out = []) ∧
      (List.Pairwise (fun a b => a.fetched_at ≤ b.fetched_at) rows →
        out = rows.filter (fun r => r.sector == s)) := by
  simp only [get_sector_history, hrows]
  refine ⟨_, rfl, sortLe_perm _ _, sortedBy_sortLe histOrd_total histOrd_trans _, ?_, ?_⟩
  · intro h
    have h2 : rows.filter (fun r => r.sector == s) = [] := by
      rw [List.filter_eq_nil_iff]
      intro a ha
      simpa using h a ha
    rw [h2]
    rfl
  · intro h
    apply sortLe_of_sorted
    unfold SortedBy
    exact (h.filter (fun r => r.sector == s)).imp (fun hab => decide_eq_true hab)

/-- A fully initialized empty store, for concrete instantiations. -/
def dbEx : DB :=
  { sector_snapshots := some [], market_movers := some [], stock_news := some [] }

/-- A concrete stored sector reading. -/
def secRowEx : SectorRow :=
  { sector := "Technology", symbol := "XLK", price := some 100, change := some 1
    changesPercentage := some 2, fetched_at := 1 }

/-- A store holding one sector reading. -/
def dbSecEx : DB :=
  { sector_snapshots := some [secRowEx], market_movers := some [], stock_news := some [] }

/-- A concrete stored news row. -/
def newsRowEx : NewsRow :=
  { url := some "u1", symbol := some "AAPL", title := "A", text := none
    site := none, publishedDate := some "2024-01-01", fetched_at := 1 }

/-- A store holding one news row. -/
def dbNewsEx : DB :=
  { sector_snapshots := some [], market_movers := some [], stock_news := some [newsRowEx] }

theorem C4_latest_sector_snapshot_witness :
    dbSecEx.sector_snapshots = some [secRowEx] ∧
    (∃ out, get_latest_sector_snapshot dbSecEx = .ok out ∧
      (∀ r, r ∈ out ↔ r ∈ [secRowEx] ∧
        maxTs ([secRowEx].map (fun s => s.fetched_at)) = some r.fetched_at) ∧
      SortedBy sectorOrd out ∧
      (∀ l1 l2 r s, out = l1 ++ r :: l2 → s ∈ l2 →
        r.changesPercentage = none → s.changesPercentage = none) ∧
      ([secRowEx] = ([] : List SectorRow) → out = [])) :=
  ⟨rfl, C4_latest_sector_snapshot dbSecEx [secRowEx] rfl⟩

theorem C5_recent_news_witness :
    dbNewsEx.stock_news = some [newsRowEx] ∧
    (∃ sortedRows out, get_news dbNewsEx 10 = .ok out ∧
      List.Perm sortedRows [newsRowEx] ∧ SortedBy newsOrd sortedRows ∧
      out = sortedRows.take 10 ∧
      ((10 : Nat) = 0 → out = []) ∧
      ([newsRowEx].length ≤ 10 → List.Perm out [newsRowEx]) ∧
      out.length = min 10 [newsRowEx].length) :=
  ⟨rfl, C5_recent_news dbNewsEx [newsRowEx] 10 rfl⟩

theorem C6_sector_history_witness :
    dbSecEx.sector_snapshots = some [secRowEx] ∧
    (∃ out, get_sector_history dbSecEx "Technology" = .ok out ∧
      List.Perm out ([secRowEx].filter (fun r => r.sector == "Technology")) ∧
      SortedBy histOrd out ∧
      ((∀ r ∈ [secRowEx], r.sector ≠ "Technology") → out = []) ∧
      (List.Pairwise (fun a b => a.fetched_at ≤ b.fetched_at) [secRowEx] →
        out = [secRowEx].filter (fun r => r.sector == "Technology"))) :=
  ⟨rfl, C6_sector_history dbSecEx [secRowEx] "Technology" rfl⟩

/-- C1: `latestMoverSnapshot(c)` returns exactly the rows of category `c`
whose captured-at equals the maximum captured-at among the rows of category
`c` (the `MAX` subquery is scoped to that category, not global), sorted by
percent change descending; and appending a batch to a different category
leaves the result for `c` unchanged. -/
theorem C1_latest_movers_per_category (db db' : DB) (rows : List MoverRow)
    (c c2 : String) (now : Nat) (data : List MoverInput)
    (hrows : db.market_movers = some rows) :
    (∃ out, get_latest_market_movers db c = .ok out ∧
      SortedBy moverOrd out ∧
      (∀ r, r ∈ out ↔ r ∈ rows ∧ r.type = c ∧
        maxTs ((rows.filter (fun x => x.type == c)).map (fun x => x.fetched_at)) =
          some r.fetched_at)) ∧
    (insert_market_movers db now c2 data = .ok db' → c2 ≠ c →
      get_latest_market_movers db' c = get_latest_market_movers db c) := by
  constructor
  · simp only [get_latest_market_movers, hrows]
    cases hm : maxTs ((rows.filter (fun x => x.type == c)).map (fun x => x.fetched_at)) with
    | none =>
      refine ⟨[], rfl, List.Pairwise.nil, ?_⟩
      intro r
      simp
    | some m =>
      refine ⟨_, rfl, sortedBy_sortLe moverOrd_total moverOrd_trans _, ?_⟩
      intro r
      rw [mem_sortLe, List.mem_filter]
      simp only [Bool.and_eq_true, beq_iff_eq, Option.some.injEq]
      constructor
      · rintro ⟨h1, h2, h3⟩
        exact ⟨h1, h2, h3.symm⟩
      · rintro ⟨h1, h2, h3⟩
        exact ⟨h1, h2, h3.symm⟩
  · intro hins hne
    obtain ⟨added, hadded, htypes, _, _⟩ := insert_market_movers_shape hrows hins
    simp only [get_latest_market_movers, hrows, hadded]
    have hfilter : (rows ++ added).filter (fun x => x.type == c) =
        rows.filter (fun x => x.type == c) := by
      rw [List.filter_append]
      have h0 : added.filter (fun x => x.type == c) = [] := by
        rw [List.filter_eq_nil_iff]
        intro a ha
        have h1 := htypes a ha
        simp [h1, hne]
      rw [h0, List.append_nil]
    have hfilter2 : ∀ m : Nat,
        (rows ++ added).filter (fun x => x.type == c && x.fetched_at == m) =
          rows.filter (fun x => x.type == c && x.fetched_at == m) := by
      intro m
      rw [List.filter_append]
      have h0 : added.filter (fun x => x.type == c && x.fetched_at == m) = [] := by
        rw [List.filter_eq_nil_iff]
        intro a ha
        have h1 := htypes a ha
        simp [h1, hne]
      rw [h0, List.append_nil]
    rw [hfilter]
    simp only [hfilter2]

/-- C2: the news collection never acquires a second row for a URL — every
`appendNews` call succeeds (duplicates are dropped, not errors), only appends
(existing rows, including their original captured-at and title, are
untouched), adds at most one row per fresh URL even when the call's list
repeats it, and adds nothing for a URL that is already stored. -/
theorem C2_news_dedup (db : DB) (rows : List NewsRow) (now : Nat)
    (data : List NewsInput) (hrows : db.stock_news = some rows) :
    ∃ db' rows', insert_news db now data = .ok db' ∧ db'.stock_news = some rows' ∧
      (∃ added, rows' = rows ++ added) ∧
      (∀ u, urlCount rows u = 0 → urlCount rows' u ≤ 1) ∧
      (∀ u, 1 ≤ urlCount rows u →
        rows'.filter (fun r => r.url == some u) =
          rows.filter (fun r => r.url == some u)) ∧
      ((∀ u, urlCount rows u ≤ 1) → ∀ u, urlCount rows' u ≤ 1) := by
  by_cases hd : data.isEmpty = true
  · refine ⟨db, rows, ?_, hrows, ⟨[], by simp⟩, ?_, ?_, ?_⟩
    · simp [insert_news, hd]
    · intro u h
      omega
    · intro u _
      rfl
    · intro h
      exact h
  · refine ⟨{ db with stock_news := some (newsInsertLoop now rows data) },
      newsInsertLoop now rows data, ?_, rfl, ?_, ?_, ?_, ?_⟩
    · simp only [insert_news, hrows]
      rw [if_neg hd]
    · exact newsInsertLoop_append data rows
    · intro u h
      exact newsInsertLoop_count_le_one data rows u (by omega)
    · intro u h
      exact newsInsertLoop_filter_of_taken data rows u (urlTaken_true_of_count h)
    · intro h u
      exact newsInsertLoop_count_le_one data rows u (h u)

/-- C3: a non-empty sector batch inserts one row per input and stamps every
row of the call with the call's single clock value; consequently, after
batches B1 then B2 at clock values t1 < t2 (the clock not behind the stored
rows), `latestSectorSnapshot` returns exactly B2's rows — never a mix. -/
theorem C3_sector_batch_snapshot (db : DB) (rows0 : List SectorRow)
    (t1 t2 : Nat) (b1 b2 : List SectorInput)
    (hrows : db.sector_snapshots = some rows0)
    (hk1 : ∀ r ∈ b1, r.sector.isSome ∧ r.symbol.isSome)
    (hk2 : ∀ r ∈ b2, r.sector.isSome ∧ r.symbol.isSome)
    (hne2 : b2 ≠ [])
    (hold : ∀ r ∈ rows0, r.fetched_at ≤ t1) (ht : t1 < t2) :
    ∃ db1 db2,
      insert_sector_snapshot db t1 b1 = .ok db1 ∧
      db1.sector_snapshots = some (rows0 ++ b1.map (sectorRowTotal t1)) ∧
      insert_sector_snapshot db1 t2 b2 = .ok db2 ∧
      db2.sector_snapshots =
        some (rows0 ++ b1.map (sectorRowTotal t1) ++ b2.map (sectorRowTotal t2)) ∧
      (∀ r ∈ b1.map (sectorRowTotal t1), r.fetched_at = t1) ∧
      (∀ r ∈ b2.map (sectorRowTotal t2), r.fetched_at = t2) ∧
      (b1.map (sectorRowTotal t1)).length = b1.length ∧
      (b2.map (sectorRowTotal t2)).length = b2.length ∧
      get_latest_sector_snapshot db2 = .ok (sortLe sectorOrd (b2.map (sectorRowTotal t2))) := by
  obtain ⟨db1, h1, h1s, _, _⟩ := insert_sector_snapshot_ok hrows hk1
  obtain ⟨db2, h2, h2s, _, _⟩ := insert_sector_snapshot_ok h1s hk2
  have hstamp1 : ∀ r ∈ b1.map (sectorRowTotal t1), r.fetched_at = t1 := by
    intro r hr
    obtain ⟨i, _, rfl⟩ := List.mem_map.mp hr
    rfl
  have hstamp2 : ∀ r ∈ b2.map (sectorRowTotal t2), r.fetched_at = t2 := by
    intro r hr
    obtain ⟨i, _, rfl⟩ := List.mem_map.mp hr
    rfl
  rw [List.append_assoc] at h2s
  refine ⟨db1, db2, h1, h1s, h2, by rw [h2s, List.append_assoc], hstamp1, hstamp2,
    List.length_map _ _, List.length_map _ _, ?_⟩
  simp only [get_latest_sector_snapshot, h2s]
  have hmax : maxTs ((rows0 ++ (b1.map (sectorRowTotal t1) ++ b2.map (sectorRowTotal t2))).map
      (fun r => r.fetched_at)) = some t2 := by
    apply maxTs_eq_of
    · obtain ⟨x, hx⟩ := List.exists_mem_of_ne_nil b2 hne2
      refine List.mem_map.mpr ⟨sectorRowTotal t2 x, ?_, rfl⟩
      refine List.mem_append.mpr (Or.inr (List.mem_append.mpr (Or.inr ?_)))
      exact List.mem_map.mpr ⟨x, hx, rfl⟩
    · intro y hy
      obtain ⟨r, hr, rfl⟩ := List.mem_map.mp hy
      rcases List.mem_append.mp hr with hr0 | hr12
      · exact le_trans (hold r hr0) (le_of_lt ht)
      · rcases List.mem_append.mp hr12 with hrb1 | hrb2
        · obtain ⟨i, _, rfl⟩ := List.mem_map.mp hrb1
          exact le_of_lt ht
        · obtain ⟨i, _, rfl⟩ := List.mem_map.mp hrb2
          exact Nat.le_refl t2
  simp only [hmax]
  have hfilter : (rows0 ++ (b1.map (sectorRowTotal t1) ++ b2.map (sectorRowTotal t2))).filter
      (fun r => r.fetched_at == t2) = b2.map (sectorRowTotal t2) := by
    rw [List.filter_append, List.filter_append]
    have e0 : rows0.filter (fun r => r.fetched_at == t2) = [] := by
      rw [List.filter_eq_nil_iff]
      intro a ha
      have h3 := hold a ha
      simp only [beq_iff_eq]
      omega
    have e1 : (b1.map (sectorRowTotal t1)).filter (fun r => r.fetched_at == t2) = [] := by
      rw [List.filter_eq_nil_iff]
      intro a ha
      have h3 := hstamp1 a ha
      simp only [beq_iff_eq, h3]
      omega
    have e2 : (b2.map (sectorRowTotal t2)).filter (fun r => r.fetched_at == t2) =
        b2.map (sectorRowTotal t2) := by
      rw [List.filter_eq_self]
      intro a ha
      have h3 := hstamp2 a ha
      simp [h3]
    rw [e0, e1, e2]
    rfl
  rw [hfilter]

/-- A concrete stored gainer row. -/
def gainerRowEx : MoverRow :=
  { type := "gainer", symbol := "AAA", name := some "Alpha", price := some 10
    change := some 1, changesPercentage := some 5, volume := some 1000, fetched_at := 3 }

/-- A store holding one gainer row. -/
def dbMovEx : DB :=
  { sector_snapshots := some [], market_movers := some [gainerRowEx], stock_news := some [] }

/-- A concrete news input. -/
def newsInputEx : NewsInput :=
  { url := some "u1", symbol := some "AAPL", title := some "A", text := none
    site := none, publishedDate := some "2024-01-01" }

/-- A concrete sector input with both mandatory keys. -/
def secInputEx : SectorInput :=
  { sector := some "Technology", symbol := some "XLK", price := some 100
    change := some 1, changesPercentage := some 2 }

/-- A second concrete sector input with both mandatory keys. -/
def secInputEx2 : SectorInput :=
  { sector := some "Energy", symbol := some "XLE", price := some 80
    change := some (-1), changesPercentage := some (-2) }

theorem C1_latest_movers_per_category_witness :
    dbMovEx.market_movers = some [gainerRowEx] ∧
    ((∃ out, get_latest_market_movers dbMovEx "gainer" = .ok out ∧
      SortedBy moverOrd out ∧
      (∀ r, r ∈ out ↔ r ∈ [gainerRowEx] ∧ r.type = "gainer" ∧
        maxTs (([gainerRowEx].filter (fun x => x.type == "gainer")).map
          (fun x => x.fetched_at)) = some r.fetched_at)) ∧
    (insert_market_movers dbMovEx 4 "loser" [] = .ok dbMovEx → "loser" ≠ "gainer" →
      get_latest_market_movers dbMovEx "gainer" = get_latest_market_movers dbMovEx "gainer")) :=
  ⟨rfl, C1_latest_movers_per_category dbMovEx dbMovEx [gainerRowEx] "gainer" "loser" 4 [] rfl⟩

theorem C2_news_dedup_witness :
    dbNewsEx.stock_news = some [newsRowEx] ∧
    (∃ db' rows', insert_news dbNewsEx 2 [newsInputEx] = .ok db' ∧
      db'.stock_news = some rows' ∧
      (∃ added, rows' = [newsRowEx] ++ added) ∧
      (∀ u, urlCount [newsRowEx] u = 0 → urlCount rows' u ≤ 1) ∧
      (∀ u, 1 ≤ urlCount [newsRowEx] u →
        rows'.filter (fun r => r.url == some u) =
          [newsRowEx].filter (fun r => r.url == some u)) ∧
      ((∀ u, urlCount [newsRowEx] u ≤ 1) → ∀ u, urlCount rows' u ≤ 1)) :=
  ⟨rfl, C2_news_dedup dbNewsEx [newsRowEx] 2 [newsInputEx] rfl⟩

theorem C3_sector_batch_snapshot_witness :
    dbEx.sector_snapshots = some [] ∧
    (∀ r ∈ [secInputEx], r.sector.isSome ∧ r.symbol.isSome) ∧
    (∀ r ∈ [secInputEx2], r.sector.isSome ∧ r.symbol.isSome) ∧
    ([secInputEx2] ≠ []) ∧
    (∀ r ∈ ([] : List SectorRow), r.fetched_at ≤ 1) ∧ (1 < 2) ∧
    (∃ db1 db2,
      insert_sector_snapshot dbEx 1 [secInputEx] = .ok db1 ∧
      db1.sector_snapshots = some ([] ++ [secInputEx].map (sectorRowTotal 1)) ∧
      insert_sector_snapshot db1 2 [secInputEx2] = .ok db2 ∧
      db2.sector_snapshots =
        some ([] ++ [secInputEx].map (sectorRowTotal 1) ++ [secInputEx2].map (sectorRowTotal 2)) ∧
      (∀ r ∈ [secInputEx].map (sectorRowTotal 1), r.fetched_at = 1) ∧
      (∀ r ∈ [secInputEx2].map (sectorRowTotal 2), r.fetched_at = 2) ∧
      ([secInputEx].map (sectorRowTotal 1)).length = [secInputEx].length ∧
      ([secInputEx2].map (sectorRowTotal 2)).length = [secInputEx2].length ∧
      get_latest_sector_snapshot db2 =
        .ok (sortLe sectorOrd ([secInputEx2].map (sectorRowTotal 2)))) :=
  ⟨rfl, by decide, by decide, by decide, by decide, by decide,
    C3_sector_batch_snapshot dbEx [] 1 2 [secInputEx] [secInputEx2] rfl
      (by decide) (by decide) (by decide) (by decide) (by decide)⟩

/-- C7: `init_db` is idempotent — any number N ≥ 1 of calls equals one call,
and a call leaves every already-existing table (schema and stored rows)
unchanged; in particular re-running it on an initialized store is not an
error. -/
theorem C7_init_db_idempotent (db : DB) :
    (∀ n : Nat, 1 ≤ n → init_db^[n] db = init_db db) ∧
    (∀ l, db.sector_snapshots = some l → (init_db db).sector_snapshots = some l) ∧
    (∀ l, db.market_movers = some l → (init_db db).market_movers = some l) ∧
    (∀ l, db.stock_news = some l → (init_db db).stock_news = some l) := by
  have key : ∀ d : DB, init_db (init_db d) = init_db d := by
    intro d
    simp [init_db]
  refine ⟨?_, ?_, ?_, ?_⟩
  · intro n hn
    induction n with
    | zero => omega
    | succ k ih =>
      cases k with
      | zero => rw [Function.iterate_one]
      | succ k2 =>
        rw [Function.iterate_succ_apply', ih (by omega), key]
  · intro l h
    simp [init_db, h]
  · intro l h
    simp [init_db, h]
  · intro l h
    simp [init_db, h]

theorem C7_init_db_idempotent_witness :
    ((1 : Nat) ≤ 2) ∧ init_db^[2] dbEx = init_db dbEx ∧
    dbEx.sector_snapshots = some [] ∧ (init_db dbEx).sector_snapshots = some [] :=
  ⟨by decide, (C7_init_db_idempotent dbEx).1 2 (by decide), rfl,
    (C7_init_db_idempotent dbEx).2.1 [] rfl⟩

/-- C8: inserting an empty batch — sector, mover or news — is a no-op: the
call returns the store unchanged (hence all row counts and contents of all
three collections are unchanged) and raises no error. -/
theorem C8_empty_insert_noop (db : DB) (now : Nat) (c : String) :
    insert_sector_snapshot db now [] = .ok db ∧
    insert_market_movers db now c [] = .ok db ∧
    insert_news db now [] = .ok db :=
  ⟨rfl, rfl, rfl⟩

/-- A sector input whose dict is missing every key. -/
def sectorInputEmpty : SectorInput :=
  { sector := none, symbol := none, price := none, change := none
    changesPercentage := none }

/-- A mover input whose dict is missing every key, in particular the symbol. -/
def moverInputEmpty : MoverInput :=
  { symbol := none, name := none, price := none, change := none
    changesPercentage := none, volume := none }

/-- A news input whose dict is missing every key, in particular the title. -/
def newsInputEmpty : NewsInput :=
  { url := none, symbol := none, title := none, text := none, site := none
    publishedDate := none }

/-- C9 counterexample: `insert_sector_snapshot` on a row missing the "sector"
key dies with a `KeyError`, and because the source has no `try/finally`
around the connection, `conn.close()` on that failure exit path is never
reached — the connection is leaked, not released, refuting the claim that
every operation releases its connection on every exit path. -/
theorem C9_counterexample :
    insert_sector_snapshot dbEx 1 [sectorInputEmpty] = .error (DBError.keyError "sector") ∧
    insert_sector_snapshot_conn dbEx 1 [sectorInputEmpty] = ConnExit.leaked :=
  ⟨rfl, rfl⟩

/-- C9 amended: every operation opens its own connection per call and holds
none across calls; an empty-batch insert returns before opening one; a call
that completes successfully closes its connection before returning; but a
call that fails propagates the error without closing the connection. -/
theorem C9_connection_scoped_amended (db : DB) (now : Nat)
    (dataS : List SectorInput) (dataN : List NewsInput) :
    (dataS = [] → insert_sector_snapshot_conn db now dataS = ConnExit.neverOpened) ∧
    (∀ db', insert_sector_snapshot db now dataS = .ok db' → dataS ≠ [] →
      insert_sector_snapshot_conn db now dataS = ConnExit.closedOk) ∧
    (∀ e, insert_sector_snapshot db now dataS = .error e →
      insert_sector_snapshot_conn db now dataS = ConnExit.leaked) ∧
    (dataN = [] → insert_news_conn db now dataN = ConnExit.neverOpened) ∧
    (∀ db', insert_news db now dataN = .ok db' → dataN ≠ [] →
      insert_news_conn db now dataN = ConnExit.closedOk) ∧
    (∀ e, insert_news db now dataN = .error e →
      insert_news_conn db now dataN = ConnExit.leaked) ∧
    (∀ out, get_latest_sector_snapshot db = .ok out →
      get_latest_sector_snapshot_conn db = ConnExit.closedOk) ∧
    (∀ e, get_latest_sector_snapshot db = .error e →
      get_latest_sector_snapshot_conn db = ConnExit.leaked) := by
  have hS : ¬ dataS = [] → dataS.isEmpty = false := by
    intro h
    cases dataS with
    | nil => exact absurd rfl h
    | cons a l => rfl
  have hN : ¬ dataN = [] → dataN.isEmpty = false := by
    intro h
    cases dataN with
    | nil => exact absurd rfl h
    | cons a l => rfl
  refine ⟨?_, ?_, ?_, ?_, ?_, ?_, ?_, ?_⟩
  · intro h
    subst h
    rfl
  · intro db' h hne
    simp [insert_sector_snapshot_conn, hS hne, connExitOfResult, h]
  · intro e h
    by_cases hd : dataS.isEmpty = true
    · rw [List.isEmpty_iff] at hd
      subst hd
      simp [insert_sector_snapshot] at h
    · simp only [insert_sector_snapshot_conn, hd, if_false, Bool.false_eq_true]
      rw [h]
      rfl
  · intro h
    subst h
    rfl
  · intro db' h hne
    simp [insert_news_conn, hN hne, connExitOfResult, h]
  · intro e h
    by_cases hd : dataN.isEmpty = true
    · rw [List.isEmpty_iff] at hd
      subst hd
      simp [insert_news] at h
    · simp only [insert_news_conn, hd, if_false, Bool.false_eq_true]
      rw [h]
      rfl
  · intro out h
    simp [get_latest_sector_snapshot_conn, connExitOfResult, h]
  · intro e h
    simp [get_latest_sector_snapshot_conn, connExitOfResult, h]

theorem C9_connection_scoped_amended_witness :
    insert_sector_snapshot_conn dbEx 1 [] = ConnExit.neverOpened ∧
    insert_sector_snapshot dbEx 1 [sectorInputEmpty] = .error (DBError.keyError "sector") ∧
    insert_sector_snapshot_conn dbEx 1 [sectorInputEmpty] = ConnExit.leaked ∧
    insert_news_conn dbEx 1 [newsInputEx] = ConnExit.closedOk :=
  ⟨(C9_connection_scoped_amended dbEx 1 [] []).1 rfl, rfl,
    (C9_connection_scoped_amended dbEx 1 [sectorInputEmpty] []).2.2.1
      (DBError.keyError "sector") rfl,
    (C9_connection_scoped_amended dbEx 1 [] [newsInputEx]).2.2.2.2.1
      { dbEx with stock_news := some (newsInsertLoop 1 [] [newsInputEx]) } rfl
      (by decide)⟩

theorem sectorInsertLoop_append_ok {tp : Bool} {now : Nat} :
    ∀ {d1 : List SectorInput} {l1 : List SectorRow},
      sectorInsertLoop tp now d1 = .ok l1 → ∀ d2,
      sectorInsertLoop tp now (d1 ++ d2) =
        match sectorInsertLoop tp now d2 with
        | .error e => .error e
        | .ok l2 => .ok (l1 ++ l2) := by
  intro d1
  induction d1 with
  | nil =>
    intro l1 h d2
    obtain rfl : ([] : List SectorRow) = l1 := by simpa [sectorInsertLoop] using h
    cases h2 : sectorInsertLoop tp now d2 with
    | error e => simp [h2]
    | ok l2 => simp [h2]
  | cons r rs ih =>
    intro l1 h d2
    cases hr : sectorRowOfInput now r with
    | error e => simp [sectorInsertLoop, hr] at h
    | ok row =>
      cases tp with
      | false => simp [sectorInsertLoop, hr] at h
      | true =>
        simp only [sectorInsertLoop, hr, if_true] at h
        cases h2 : sectorInsertLoop true now rs with
        | error e => rw [h2] at h; simp at h
        | ok lrest =>
          rw [h2] at h
          injection h with h3
          subst h3
          simp only [List.cons_append, sectorInsertLoop, hr, if_true, List.append_eq]
          rw [ih h2 d2]
          cases h4 : sectorInsertLoop true now d2 with
          | error e => rfl
          | ok l2 => simp

theorem sectorInsertLoop_deficient {now : Nat} :
    ∀ {data : List SectorInput},
      (∃ i ∈ data, i.sector = none ∨ i.symbol = none) →
      ∃ k, sectorInsertLoop true now data = .error (DBError.keyError k) := by
  intro data
  induction data with
  | nil =>
    rintro ⟨i, hi, _⟩
    simp at hi
  | cons d ds ih =>
    rintro ⟨i, hi, hdef⟩
    cases hs : d.sector with
    | none => exact ⟨"sector", by simp [sectorInsertLoop, sectorRowOfInput, hs]⟩
    | some s =>
      cases hsym : d.symbol with
      | none => exact ⟨"symbol", by simp [sectorInsertLoop, sectorRowOfInput, hs, hsym]⟩
      | some sym =>
        rcases List.mem_cons.mp hi with heq | hi2
        · rw [heq] at hdef
          rcases hdef with h1 | h1
          · rw [hs] at h1
            exact absurd h1 (by simp)
          · rw [hsym] at h1
            exact absurd h1 (by simp)
        · obtain ⟨k, hk⟩ := ih ⟨i, hi2, hdef⟩
          refine ⟨k, ?_⟩
          simp [sectorInsertLoop, sectorRowOfInput, hs, hsym, hk]

theorem moverInsertLoop_deficient {c : String} {now : Nat} :
    ∀ {data : List MoverInput},
      (∃ m ∈ data, m.symbol = none) →
      moverInsertLoop true c now data = .error DBError.notNullViolation := by
  intro data
  induction data with
  | nil =>
    rintro ⟨m, hm, _⟩
    simp at hm
  | cons d ds ih =>
    rintro ⟨m, hm, hdef⟩
    cases hs : d.symbol with
    | none => simp [moverInsertLoop, moverRowOfInput, hs]
    | some sym =>
      rcases List.mem_cons.mp hm with heq | hm2
      · rw [heq] at hdef
        rw [hs] at hdef
        exact absurd hdef (by simp)
      · simp [moverInsertLoop, moverRowOfInput, hs, ih ⟨m, hm2, hdef⟩]

theorem newsInsertLoop_split {now : Nat} :
    ∀ (d1 d2 : List NewsInput) (acc : List NewsRow),
      newsInsertLoop now acc (d1 ++ d2) =
        newsInsertLoop now (newsInsertLoop now acc d1) d2 := by
  intro d1
  induction d1 with
  | nil =>
    intro d2 acc
    rfl
  | cons it rest ih =>
    intro d2 acc
    cases hn : newsRowOfInput now it with
    | none =>
      simp only [List.cons_append, newsInsertLoop, hn]
      exact ih d2 acc
    | some row =>
      by_cases ht : urlTaken acc row.url = true
      · simp only [List.cons_append, newsInsertLoop, hn]
        rw [if_pos ht, if_pos ht]
        exact ih d2 acc
      · simp only [List.cons_append, newsInsertLoop, hn]
        rw [if_neg ht, if_neg ht]
        exact ih d2 (acc ++ [row])

/-- C10 counterexample: contrary to the claim that `appendMoverBatch`
tolerates any missing field by inserting NULL, a mover row whose dict lacks
"symbol" hits the `symbol TEXT NOT NULL` constraint (the movers insert has no
OR IGNORE), so the call raises a constraint error and stores nothing. -/
theorem C10_counterexample :
    insert_market_movers dbEx 1 "gainer" [moverInputEmpty] =
      .error DBError.notNullViolation :=
  rfl

/-- C10 amended: `appendSectorBatch` requires every row to carry the "sector"
and "symbol" keys: in any batch, the first row missing one raises the
corresponding key-lookup error (whatever rows follow it), so every batch
containing such a row raises a key-lookup error; `appendNews` tolerates any
missing field in any batch (it never errors; an item without a title is
silently dropped at any position because the ignore-on-conflict insert
swallows the NOT NULL violation, and an item with a title and a fresh URL is
stored at any position with NULL in every absent field, including a missing
URL); `appendMoverBatch` tolerates a missing name, price, change, percent
change or volume (stored as NULL), but any batch containing a row missing the
symbol raises a NOT NULL constraint error instead of inserting a null
symbol. -/
theorem C10_field_requirements (db : DB) (now : Nat) (c : String) :
    (∀ (rows : List SectorRow) (pre : List SectorInput) (i : SectorInput) rest,
      db.sector_snapshots = some rows →
      (∀ r ∈ pre, r.sector.isSome ∧ r.symbol.isSome) → i.sector = none →
      insert_sector_snapshot db now (pre ++ i :: rest) = .error (DBError.keyError "sector")) ∧
    (∀ (rows : List SectorRow) (pre : List SectorInput) (i : SectorInput) rest s,
      db.sector_snapshots = some rows →
      (∀ r ∈ pre, r.sector.isSome ∧ r.symbol.isSome) →
      i.sector = some s → i.symbol = none →
      insert_sector_snapshot db now (pre ++ i :: rest) = .error (DBError.keyError "symbol")) ∧
    (∀ (rows : List SectorRow) (data : List SectorInput),
      db.sector_snapshots = some rows →
      (∃ i ∈ data, i.sector = none ∨ i.symbol = none) →
      ∃ k, insert_sector_snapshot db now data = .error (DBError.keyError k)) ∧
    (∀ (rows : List MoverRow) (data : List MoverInput), db.market_movers = some rows →
      (∃ m ∈ data, m.symbol = none) →
      insert_market_movers db now c data = .error DBError.notNullViolation) ∧
    (∀ (rows : List MoverRow) (data : List MoverInput), db.market_movers = some rows →
      (∀ m ∈ data, m.symbol.isSome) →
      ∃ db', insert_market_movers db now c data = .ok db' ∧
        db'.market_movers = some (rows ++ data.map (moverRowTotal c now))) ∧
    (∀ (rows : List NewsRow) (data : List NewsInput), db.stock_news = some rows →
      ∃ db' added, insert_news db now data = .ok db' ∧
        db'.stock_news = some (rows ++ added)) ∧
    (∀ (rows : List NewsRow) (preN : List NewsInput) (n : NewsInput) restN,
      db.stock_news = some rows → n.title = none →
      insert_news db now (preN ++ n :: restN) = insert_news db now (preN ++ restN)) ∧
    (∀ (rows : List NewsRow) (preN : List NewsInput) (n : NewsInput) (t : String) restN,
      db.stock_news = some rows → n.title = some t →
      urlTaken (newsInsertLoop now rows preN) n.url = false →
      ∃ db' added, insert_news db now (preN ++ n :: restN) = .ok db' ∧
        db'.stock_news = some (newsInsertLoop now rows preN ++
          NewsRow.mk n.url n.symbol t n.text n.site n.publishedDate now :: added)) := by
  refine ⟨?_, ?_, ?_, ?_, ?_, ?_, ?_, ?_⟩
  · intro rows pre i rest hrows hpre hsec
    have hne : ¬((pre ++ i :: rest).isEmpty = true) := by simp
    simp only [insert_sector_snapshot, hrows, Option.isSome_some]
    rw [if_neg hne, sectorInsertLoop_append_ok (sectorInsertLoop_ok hpre) (i :: rest)]
    have hstep : sectorInsertLoop true now (i :: rest) = .error (DBError.keyError "sector") := by
      simp [sectorInsertLoop, sectorRowOfInput, hsec]
    rw [hstep]
  · intro rows pre i rest s hrows hpre hsec hsym
    have hne : ¬((pre ++ i :: rest).isEmpty = true) := by simp
    simp only [insert_sector_snapshot, hrows, Option.isSome_some]
    rw [if_neg hne, sectorInsertLoop_append_ok (sectorInsertLoop_ok hpre) (i :: rest)]
    have hstep : sectorInsertLoop true now (i :: rest) = .error (DBError.keyError "symbol") := by
      simp [sectorInsertLoop, sectorRowOfInput, hsec, hsym]
    rw [hstep]
  · intro rows data hrows hex
    obtain ⟨k, hk⟩ := sectorInsertLoop_deficient hex
    have hne : ¬(data.isEmpty = true) := by
      rcases hex with ⟨i, hi, _⟩
      intro h
      rw [List.isEmpty_iff] at h
      subst h
      simp at hi
    refine ⟨k, ?_⟩
    simp only [insert_sector_snapshot, hrows, Option.isSome_some]
    rw [if_neg hne, hk]
  · intro rows data hrows hex
    have hne : ¬(data.isEmpty = true) := by
      rcases hex with ⟨m, hm, _⟩
      intro h
      rw [List.isEmpty_iff] at h
      subst h
      simp at hm
    simp only [insert_market_movers, hrows, Option.isSome_some]
    rw [if_neg hne, moverInsertLoop_deficient hex]
  · intro rows data hrows hsym
    obtain ⟨db', h1, h2, _, _⟩ := insert_market_movers_ok hrows hsym
    exact ⟨db', h1, h2⟩
  · intro rows data hrows
    by_cases hd : data.isEmpty = true
    · rw [List.isEmpty_iff] at hd
      subst hd
      exact ⟨db, [], rfl, by simp [hrows]⟩
    · obtain ⟨added, hadd⟩ := newsInsertLoop_append data rows
      refine ⟨{ db with stock_news := some (rows ++ added) }, added, ?_, rfl⟩
      simp only [insert_news, hrows]
      rw [if_neg hd, hadd]
  · intro rows preN n restN hrows ht
    have hloop : newsInsertLoop now rows (preN ++ n :: restN) =
        newsInsertLoop now rows (preN ++ restN) := by
      rw [newsInsertLoop_split, newsInsertLoop_split]
      simp [newsInsertLoop, newsRowOfInput, ht]
    by_cases hpr : preN ++ restN = []
    · obtain ⟨hp, hr⟩ := List.append_eq_nil.mp hpr
      subst hp
      subst hr
      have h2 : newsInsertLoop now rows [n] = rows := by
        simp [newsInsertLoop, newsRowOfInput, ht]
      have h3 : ({ db with stock_news := some rows } : DB) = db := by rw [← hrows]
      simp [insert_news, hrows, h2, h3]
    · have hd1 : ¬((preN ++ n :: restN).isEmpty = true) := by simp
      have hd2 : ¬((preN ++ restN).isEmpty = true) := by simp [List.isEmpty_iff, hpr]
      simp only [insert_news, hrows]
      rw [if_neg hd1, if_neg hd2, hloop]
  · intro rows preN n t restN hrows ht hu
    have hstep : newsInsertLoop now (newsInsertLoop now rows preN) (n :: restN) =
        newsInsertLoop now (newsInsertLoop now rows preN ++
          [NewsRow.mk n.url n.symbol t n.text n.site n.publishedDate now]) restN := by
      simp only [newsInsertLoop, newsRowOfInput, ht]
      rw [if_neg (by simp [hu])]
    obtain ⟨added, hadd⟩ := newsInsertLoop_append restN (newsInsertLoop now rows preN ++
      [NewsRow.mk n.url n.symbol t n.text n.site n.publishedDate now])
    refine ⟨{ db with stock_news := some (newsInsertLoop now rows preN ++
      NewsRow.mk n.url n.symbol t n.text n.site n.publishedDate now :: added) }, added, ?_, rfl⟩
    have hd1 : ¬((preN ++ n :: restN).isEmpty = true) := by simp
    simp only [insert_news, hrows]
    rw [if_neg hd1, newsInsertLoop_split, hstep, hadd]
    simp

theorem C10_field_requirements_witness :
    dbEx.sector_snapshots = some [] ∧
    (∀ r ∈ [secInputEx], r.sector.isSome ∧ r.symbol.isSome) ∧
    sectorInputEmpty.sector = none ∧
    insert_sector_snapshot dbEx 1 ([secInputEx] ++ sectorInputEmpty :: []) =
      .error (DBError.keyError "sector") ∧
    (∃ i ∈ [secInputEx, sectorInputEmpty], i.sector = none ∨ i.symbol = none) ∧
    (∃ k, insert_sector_snapshot dbEx 1 [secInputEx, sectorInputEmpty] =
      .error (DBError.keyError k)) ∧
    (∃ m ∈ [moverInputEmpty], m.symbol = none) ∧
    insert_market_movers dbEx 1 "gainer" [moverInputEmpty] = .error DBError.notNullViolation ∧
    newsInputEmpty.title = none ∧
    insert_news dbEx 1 ([newsInputEx] ++ newsInputEmpty :: [newsInputEx]) =
      insert_news dbEx 1 ([newsInputEx] ++ [newsInputEx]) ∧
    urlTaken (newsInsertLoop 1 [] [newsInputEmpty]) newsInputEx.url = false ∧
    (∃ db' added, insert_news dbEx 1 ([newsInputEmpty] ++ newsInputEx :: []) = .ok db' ∧
      db'.stock_news = some (newsInsertLoop 1 [] [newsInputEmpty] ++
        NewsRow.mk newsInputEx.url newsInputEx.symbol "A" newsInputEx.text newsInputEx.site
          newsInputEx.publishedDate 1 :: added)) :=
  ⟨rfl, by decide, rfl,
    (C10_field_requirements dbEx 1 "gainer").1 [] [secInputEx] sectorInputEmpty [] rfl
      (by decide) rfl,
    ⟨sectorInputEmpty, List.mem_cons_of_mem _ (List.mem_cons_self _ _), Or.inl rfl⟩,
    (C10_field_requirements dbEx 1 "gainer").2.2.1 [] [secInputEx, sectorInputEmpty] rfl
      ⟨sectorInputEmpty, List.mem_cons_of_mem _ (List.mem_cons_self _ _), Or.inl rfl⟩,
    ⟨moverInputEmpty, List.mem_cons_self _ _, rfl⟩,
    (C10_field_requirements dbEx 1 "gainer").2.2.2.1 [] [moverInputEmpty] rfl
      ⟨moverInputEmpty, List.mem_cons_self _ _, rfl⟩,
    rfl,
    (C10_field_requirements dbEx 1 "gainer").2.2.2.2.2.2.1 [] [newsInputEx] newsInputEmpty
      [newsInputEx] rfl rfl,
    rfl,
    (C10_field_requirements dbEx 1 "gainer").2.2.2.2.2.2.2 [] [newsInputEmpty] newsInputEx
      "A" [] rfl rfl rfl⟩

end NewsSentiment
